import Mathlib

/-!
Verification of the alpha-computation core of SimpleColorKeyer
(src/SimpleColorKeyer.cpp), a per-pixel chroma keyer with four keying
strategies and a six-direction tolerance-expansion model.

Floating-point arithmetic of the source is modelled over the real numbers.
-/

set_option maxHeartbeats 1000000

noncomputable section

namespace SimpleColorKeyer

/-- RGB colour triple, mirroring `struct Color3` (SimpleColorKeyer.cpp, lines 10-20). -/
structure Color3 where
  r : ℝ
  g : ℝ
  b : ℝ

/-- Euclidean distance in RGB space, mirroring `Color3::distance_to`
(SimpleColorKeyer.cpp, lines 14-19). -/
def Color3.distance_to (c other : Color3) : ℝ :=
  Real.sqrt ((c.r - other.r) * (c.r - other.r) +
    (c.g - other.g) * (c.g - other.g) +
    (c.b - other.b) * (c.b - other.b))

/-- Snapshot of the knob state of `SimpleColorKeyerIop`
(SimpleColorKeyer.cpp, lines 24-34): base tolerance, six directional
ranges, gain, invert flag and the keying-method selector. -/
structure Params where
  variance : ℝ
  range_red : ℝ
  range_green : ℝ
  range_blue : ℝ
  range_yellow : ℝ
  range_magenta : ℝ
  range_cyan : ℝ
  gain : ℝ
  invert : Bool
  keying_method : ℤ

/-- One `if (range > 0) tolerance += range * 0.1 * match;` statement of
`calculate_distance_alpha` (lines 153-170). -/
def add_if_pos (t range m : ℝ) : ℝ :=
  if range > 0 then t + range * 0.1 * m else t

/-- One `if (range < 0) tolerance += range * 0.1 * match;` statement of
`calculate_distance_alpha` (lines 173-190). -/
def add_if_neg (t range m : ℝ) : ℝ :=
  if range < 0 then t + range * 0.1 * m else t

/-- The `effective_tolerance` computation of `calculate_distance_alpha`
(lines 139-193): start from `variance_`, run the six positive-range
statements, the six negative-range statements, then floor at 0.001. -/
def effective_tolerance (pixel : Color3) (p : Params) : ℝ :=
  let red_match := pixel.r
  let green_match := pixel.g
  let blue_match := pixel.b
  let yellow_match := min pixel.r pixel.g
  let magenta_match := min pixel.r pixel.b
  let cyan_match := min pixel.g pixel.b
  let t1 := add_if_pos p.variance p.range_red red_match
  let t2 := add_if_pos t1 p.range_green green_match
  let t3 := add_if_pos t2 p.range_blue blue_match
  let t4 := add_if_pos t3 p.range_yellow yellow_match
  let t5 := add_if_pos t4 p.range_magenta magenta_match
  let t6 := add_if_pos t5 p.range_cyan cyan_match
  let t7 := add_if_neg t6 p.range_red red_match
  let t8 := add_if_neg t7 p.range_green green_match
  let t9 := add_if_neg t8 p.range_blue blue_match
  let t10 := add_if_neg t9 p.range_yellow yellow_match
  let t11 := add_if_neg t10 p.range_magenta magenta_match
  let t12 := add_if_neg t11 p.range_cyan cyan_match
  max 0.001 t12

/-- Distance-based keying, mirroring `calculate_distance_alpha`
(lines 137-198): linear falloff of the RGB Euclidean distance over the
effective tolerance. -/
def calculate_distance_alpha (pixel key : Color3) (p : Params) : ℝ :=
  let base_distance := pixel.distance_to key
  let normalized_distance := base_distance / effective_tolerance pixel p
  max 0 (1 - normalized_distance)

/-- The chroma distance of `calculate_chroma_alpha` (lines 202-208):
Euclidean distance between pixel and key in the (u, v) = (r - g, b - g)
projection. -/
def chroma_distance (pixel key : Color3) : ℝ :=
  let pixel_u := pixel.r - pixel.g
  let pixel_v := pixel.b - pixel.g
  let key_u := key.r - key.g
  let key_v := key.b - key.g
  Real.sqrt ((pixel_u - key_u) * (pixel_u - key_u) +
    (pixel_v - key_v) * (pixel_v - key_v))

/-- Chroma-based keying, mirroring `calculate_chroma_alpha` (lines 200-211):
the chroma distance is normalised by the raw `variance_`, with no floor. -/
def calculate_chroma_alpha (pixel key : Color3) (p : Params) : ℝ :=
  let normalized_distance := chroma_distance pixel key / p.variance
  max 0 (1 - normalized_distance)

/-- Perceptual luminance used by `calculate_luma_weighted_alpha`
(lines 214-215). -/
def luma (c : Color3) : ℝ :=
  0.299 * c.r + 0.587 * c.g + 0.114 * c.b

/-- Luma-weighted keying, mirroring `calculate_luma_weighted_alpha`
(lines 213-222). -/
def calculate_luma_weighted_alpha (pixel key : Color3) (p : Params) : ℝ :=
  let luma_diff := |luma pixel - luma key|
  let luma_weight := 1 - min 1 (luma_diff / 0.5)
  let color_alpha := calculate_distance_alpha pixel key p
  color_alpha * luma_weight

/-- Key-colour saturation used by `calculate_adaptive_alpha` (line 229). -/
def key_saturation (key : Color3) : ℝ :=
  max key.r (max key.g key.b) - min key.r (min key.g key.b)

/-- Adaptive keying, mirroring `calculate_adaptive_alpha` (lines 224-238). -/
def calculate_adaptive_alpha (pixel key : Color3) (p : Params) : ℝ :=
  let distance_alpha := calculate_distance_alpha pixel key p
  let chroma_alpha := calculate_chroma_alpha pixel key p
  if key_saturation key > 0.5 then
    0.3 * distance_alpha + 0.7 * chroma_alpha
  else
    0.7 * distance_alpha + 0.3 * chroma_alpha

/-- Method dispatch, mirroring the `switch (keying_method_)` of
`calculate_alpha` (lines 116-135); the accumulator starts at 0.0 and an
unmatched selector leaves it there. -/
def calculate_alpha (pixel key : Color3) (p : Params) : ℝ :=
  if p.keying_method = 0 then calculate_distance_alpha pixel key p
  else if p.keying_method = 1 then calculate_chroma_alpha pixel key p
  else if p.keying_method = 2 then calculate_luma_weighted_alpha pixel key p
  else if p.keying_method = 3 then calculate_adaptive_alpha pixel key p
  else 0

/-- Post-processing of the raw alpha in `engine` (lines 96-102): multiply by
gain, clamp to [0, 1], then invert when requested. -/
def finalize (raw : ℝ) (p : Params) : ℝ :=
  let a := raw * p.gain
  let clamped := max 0 (min 1 a)
  if p.invert then 1 - clamped else clamped

/-! Helper lemmas about the effective tolerance. -/

theorem add_if_pos_eq (t range m : ℝ) :
    add_if_pos t range m = t + (if range > 0 then range * 0.1 * m else 0) := by
  unfold add_if_pos
  split_ifs <;> ring

theorem add_if_neg_eq (t range m : ℝ) :
    add_if_neg t range m = t + (if range < 0 then range * 0.1 * m else 0) := by
  unfold add_if_neg
  split_ifs <;> ring

theorem pos_add_neg (range m : ℝ) :
    (if range > 0 then range * 0.1 * m else 0) +
      (if range < 0 then range * 0.1 * m else 0) = range * 0.1 * m := by
  rcases lt_trichotomy range 0 with h | h | h
  · rw [if_neg (by linarith), if_pos h]
    ring
  · subst h
    norm_num
  · rw [if_pos h, if_neg (by linarith)]
    ring

/-- The twelve sequential range statements amount to adding, for each of the
six directions, the full term `range * 0.1 * match` to the variance. -/
theorem effective_tolerance_eq (pixel : Color3) (p : Params) :
    effective_tolerance pixel p =
      max 0.001 (p.variance
        + p.range_red * 0.1 * pixel.r
        + p.range_green * 0.1 * pixel.g
        + p.range_blue * 0.1 * pixel.b
        + p.range_yellow * 0.1 * min pixel.r pixel.g
        + p.range_magenta * 0.1 * min pixel.r pixel.b
        + p.range_cyan * 0.1 * min pixel.g pixel.b) := by
  unfold effective_tolerance
  simp only [add_if_pos_eq, add_if_neg_eq]
  congr 1
  have h1 := pos_add_neg p.range_red pixel.r
  have h2 := pos_add_neg p.range_green pixel.g
  have h3 := pos_add_neg p.range_blue pixel.b
  have h4 := pos_add_neg p.range_yellow (min pixel.r pixel.g)
  have h5 := pos_add_neg p.range_magenta (min pixel.r pixel.b)
  have h6 := pos_add_neg p.range_cyan (min pixel.g pixel.b)
  linarith

theorem effective_tolerance_ge (pixel : Color3) (p : Params) :
    0.001 ≤ effective_tolerance pixel p := by
  simp only [effective_tolerance]
  exact le_max_left _ _

theorem effective_tolerance_pos (pixel : Color3) (p : Params) :
    0 < effective_tolerance pixel p :=
  lt_of_lt_of_le (by norm_num) (effective_tolerance_ge pixel p)

/-- C1: the Distance method returns `max 0 (1 - distance / tolerance)` where
the tolerance is the variance plus the additive contributions
`range * 0.1 * match` of all six directions (red, green, blue channels;
yellow, magenta, cyan as pairwise minima), floored at 0.001. -/
theorem distance_alpha_formula (pixel key : Color3) (p : Params) :
    calculate_distance_alpha pixel key p =
      max 0 (1 - pixel.distance_to key /
        max 0.001 (p.variance
          + p.range_red * 0.1 * pixel.r
          + p.range_green * 0.1 * pixel.g
          + p.range_blue * 0.1 * pixel.b
          + p.range_yellow * 0.1 * min pixel.r pixel.g
          + p.range_magenta * 0.1 * min pixel.r pixel.b
          + p.range_cyan * 0.1 * min pixel.g pixel.b)) := by
  unfold calculate_distance_alpha
  rw [effective_tolerance_eq]

/-- C2: the Distance-method denominator (also used by the LumaWeighted and
Adaptive methods) is always at least 0.001, so it never divides by zero,
while the Chroma method normalises by the raw variance with no floor. -/
theorem distance_floor_chroma_no_floor :
    (∀ (pixel : Color3) (p : Params), 0.001 ≤ effective_tolerance pixel p) ∧
    (∀ (pixel key : Color3) (p : Params),
      calculate_chroma_alpha pixel key p =
        max 0 (1 - chroma_distance pixel key / p.variance)) := by
  constructor
  · exact effective_tolerance_ge
  · intro pixel key p
    rfl

/-! Helper bounds for the four raw alphas. -/

theorem distance_alpha_nonneg (pixel key : Color3) (p : Params) :
    0 ≤ calculate_distance_alpha pixel key p :=
  le_max_left _ _

theorem distance_alpha_le_one (pixel key : Color3) (p : Params) :
    calculate_distance_alpha pixel key p ≤ 1 := by
  unfold calculate_distance_alpha
  apply max_le (by norm_num)
  have hd : 0 ≤ Color3.distance_to pixel key := Real.sqrt_nonneg _
  have ht : 0 < effective_tolerance pixel p := effective_tolerance_pos pixel p
  have hq : 0 ≤ Color3.distance_to pixel key / effective_tolerance pixel p :=
    div_nonneg hd ht.le
  linarith

theorem chroma_alpha_nonneg (pixel key : Color3) (p : Params) :
    0 ≤ calculate_chroma_alpha pixel key p :=
  le_max_left _ _

theorem chroma_alpha_le_one (pixel key : Color3) (p : Params)
    (h : 0 < p.variance) :
    calculate_chroma_alpha pixel key p ≤ 1 := by
  unfold calculate_chroma_alpha
  apply max_le (by norm_num)
  have hd : 0 ≤ chroma_distance pixel key := Real.sqrt_nonneg _
  have hq : 0 ≤ chroma_distance pixel key / p.variance := div_nonneg hd h.le
  linarith

theorem luma_weight_bounds (pixel key : Color3) :
    0 ≤ 1 - min 1 (|luma pixel - luma key| / 0.5) ∧
      1 - min 1 (|luma pixel - luma key| / 0.5) ≤ 1 := by
  have h0 : (0 : ℝ) ≤ |luma pixel - luma key| / 0.5 :=
    div_nonneg (abs_nonneg _) (by norm_num)
  constructor
  · have : min 1 (|luma pixel - luma key| / 0.5) ≤ 1 := min_le_left _ _
    linarith
  · have : (0 : ℝ) ≤ min 1 (|luma pixel - luma key| / 0.5) :=
      le_min (by norm_num) h0
    linarith

/-- C3: with positive variance, the raw alpha of each of the four methods
(Distance, Chroma, LumaWeighted, Adaptive) lies in the interval [0, 1]. -/
theorem raw_alpha_mem_unit (pixel key : Color3) (p : Params)
    (h : 0 < p.variance) :
    (0 ≤ calculate_distance_alpha pixel key p ∧
      calculate_distance_alpha pixel key p ≤ 1) ∧
    (0 ≤ calculate_chroma_alpha pixel key p ∧
      calculate_chroma_alpha pixel key p ≤ 1) ∧
    (0 ≤ calculate_luma_weighted_alpha pixel key p ∧
      calculate_luma_weighted_alpha pixel key p ≤ 1) ∧
    (0 ≤ calculate_adaptive_alpha pixel key p ∧
      calculate_adaptive_alpha pixel key p ≤ 1) := by
  have hd0 := distance_alpha_nonneg pixel key p
  have hd1 := distance_alpha_le_one pixel key p
  have hc0 := chroma_alpha_nonneg pixel key p
  have hc1 := chroma_alpha_le_one pixel key p h
  have hw := luma_weight_bounds pixel key
  refine ⟨⟨hd0, hd1⟩, ⟨hc0, hc1⟩, ⟨?_, ?_⟩, ⟨?_, ?_⟩⟩
  · exact mul_nonneg hd0 hw.1
  · calc calculate_distance_alpha pixel key p *
        (1 - min 1 (|luma pixel - luma key| / 0.5)) ≤
        1 * 1 := mul_le_mul hd1 hw.2 hw.1 (by norm_num)
      _ = 1 := by norm_num
  · unfold calculate_adaptive_alpha
    split_ifs <;> nlinarith
  · unfold calculate_adaptive_alpha
    split_ifs <;> nlinarith

/-- Example pixel used by the witnesses. -/
def pixelEx : Color3 := ⟨0.2, 0.8, 0.1⟩

/-- Example key colour used by the witnesses. -/
def keyEx : Color3 := ⟨0, 1, 0⟩

/-- Example parameter set used by the witnesses. -/
def paramsEx : Params :=
  { variance := 0.3, range_red := 0.5, range_green := -1, range_blue := 0,
    range_yellow := 2, range_magenta := 0, range_cyan := -0.5,
    gain := 1, invert := false, keying_method := 0 }

theorem raw_alpha_mem_unit_witness :
    (0 ≤ calculate_distance_alpha pixelEx keyEx paramsEx ∧
      calculate_distance_alpha pixelEx keyEx paramsEx ≤ 1) ∧
    (0 ≤ calculate_chroma_alpha pixelEx keyEx paramsEx ∧
      calculate_chroma_alpha pixelEx keyEx paramsEx ≤ 1) ∧
    (0 ≤ calculate_luma_weighted_alpha pixelEx keyEx paramsEx ∧
      calculate_luma_weighted_alpha pixelEx keyEx paramsEx ≤ 1) ∧
    (0 ≤ calculate_adaptive_alpha pixelEx keyEx paramsEx ∧
      calculate_adaptive_alpha pixelEx keyEx paramsEx ≤ 1) :=
  raw_alpha_mem_unit pixelEx keyEx paramsEx (by norm_num [paramsEx])

theorem clamp_le_one (a : ℝ) : max 0 (min 1 a) ≤ 1 :=
  max_le (by norm_num) (min_le_left _ _)

/-- C4: post-processing multiplies by gain, clamps to [0, 1], then inverts;
hence the result is never negative, a raw alpha of 1 with gain 2 and invert
gives 0, and a raw alpha of 0.5 with gain 1 and invert gives 0.5. -/
theorem finalize_order (p q : Params)
    (hpg : p.gain = 2) (hpi : p.invert = true)
    (hqg : q.gain = 1) (hqi : q.invert = true) :
    (∀ (raw : ℝ) (r2 : Params), 0 ≤ finalize raw r2) ∧
    finalize 1 p = 0 ∧ finalize 0.5 q = 0.5 := by
  refine ⟨?_, ?_, ?_⟩
  · intro raw r2
    simp only [finalize]
    split_ifs
    · have := clamp_le_one (raw * r2.gain)
      linarith
    · exact le_max_left _ _
  · unfold finalize
    rw [hpg, hpi]
    norm_num
  · unfold finalize
    rw [hqg, hqi]
    norm_num

/-- Parameter set with gain 2 and invert on, for the C4 witness. -/
def paramsGain2 : Params :=
  { variance := 0.3, range_red := 0, range_green := 0, range_blue := 0,
    range_yellow := 0, range_magenta := 0, range_cyan := 0,
    gain := 2, invert := true, keying_method := 0 }

/-- Parameter set with gain 1 and invert on, for the C4 witness. -/
def paramsGain1 : Params :=
  { variance := 0.3, range_red := 0, range_green := 0, range_blue := 0,
    range_yellow := 0, range_magenta := 0, range_cyan := 0,
    gain := 1, invert := true, keying_method := 0 }

theorem finalize_order_witness :
    (∀ (raw : ℝ) (r2 : Params), 0 ≤ finalize raw r2) ∧
    finalize 1 paramsGain2 = 0 ∧ finalize 0.5 paramsGain1 = 0.5 :=
  finalize_order paramsGain2 paramsGain1 rfl rfl rfl rfl

/-- C5: the LumaWeighted alpha is the Distance alpha multiplied by the weight
`1 - min 1 (|luma pixel - luma key| / 0.5)` with the standard 0.299/0.587/0.114
luminance; the weight vanishes once the luminance difference reaches 0.5. -/
theorem luma_weighted_formula (pixel key : Color3) (p : Params) :
    calculate_luma_weighted_alpha pixel key p =
      calculate_distance_alpha pixel key p *
        (1 - min 1 (|luma pixel - luma key| / 0.5)) ∧
    (0.5 ≤ |luma pixel - luma key| →
      calculate_luma_weighted_alpha pixel key p = 0) := by
  constructor
  · rfl
  · intro h
    simp only [calculate_luma_weighted_alpha]
    have hmin : min 1 (|luma pixel - luma key| / 0.5) = 1 := by
      apply min_eq_left
      rw [le_div_iff₀ (by norm_num)]
      linarith
    rw [hmin]
    ring

/-- White pixel, for the C5 witness. -/
def pixelWhite : Color3 := ⟨1, 1, 1⟩

/-- Black key colour, for the C5 witness. -/
def keyBlack : Color3 := ⟨0, 0, 0⟩

theorem luma_weighted_formula_witness :
    calculate_luma_weighted_alpha pixelWhite keyBlack paramsEx = 0 :=
  (luma_weighted_formula pixelWhite keyBlack paramsEx).2
    (by norm_num [luma, pixelWhite, keyBlack])

/-- C6: the Adaptive alpha blends the Distance and Chroma alphas 0.3/0.7 when
the key saturation exceeds 0.5 and 0.7/0.3 otherwise. -/
theorem adaptive_blend (pixel key : Color3) (p : Params) :
    (key_saturation key > 0.5 →
      calculate_adaptive_alpha pixel key p =
        0.3 * calculate_distance_alpha pixel key p +
          0.7 * calculate_chroma_alpha pixel key p) ∧
    (key_saturation key ≤ 0.5 →
      calculate_adaptive_alpha pixel key p =
        0.7 * calculate_distance_alpha pixel key p +
          0.3 * calculate_chroma_alpha pixel key p) := by
  constructor
  · intro h
    unfold calculate_adaptive_alpha
    rw [if_pos h]
  · intro h
    unfold calculate_adaptive_alpha
    rw [if_neg (not_lt.mpr h)]

/-- Saturated red key (saturation 1), for the C6 witness. -/
def keyRed : Color3 := ⟨1, 0, 0⟩

/-- Weakly saturated key (saturation 0.1), for the C6 witness. -/
def keyGray : Color3 := ⟨0.4, 0.4, 0.5⟩

theorem adaptive_blend_witness :
    calculate_adaptive_alpha pixelEx keyRed paramsEx =
      0.3 * calculate_distance_alpha pixelEx keyRed paramsEx +
        0.7 * calculate_chroma_alpha pixelEx keyRed paramsEx ∧
    calculate_adaptive_alpha pixelEx keyGray paramsEx =
      0.7 * calculate_distance_alpha pixelEx keyGray paramsEx +
        0.3 * calculate_chroma_alpha pixelEx keyGray paramsEx :=
  ⟨(adaptive_blend pixelEx keyRed paramsEx).1
      (by norm_num [key_saturation, keyRed, max_def, min_def]),
    (adaptive_blend pixelEx keyGray paramsEx).2
      (by norm_num [key_saturation, keyGray, max_def, min_def])⟩

/-- C7: the Chroma alpha depends on the parameters only through the variance;
two parameter sets with equal variance and arbitrary directional ranges give
identical Chroma alphas. -/
theorem chroma_ignores_ranges (pixel key : Color3) (p q : Params)
    (h : p.variance = q.variance) :
    calculate_chroma_alpha pixel key p = calculate_chroma_alpha pixel key q := by
  unfold calculate_chroma_alpha
  rw [h]

/-- Parameter set sharing the variance of paramsEx but with all six
directional ranges changed, for the C7 witness. -/
def paramsRanged : Params :=
  { variance := 0.3, range_red := 3, range_green := -3, range_blue := 1.5,
    range_yellow := -2, range_magenta := 0.7, range_cyan := 2.5,
    gain := 1, invert := false, keying_method := 1 }

theorem chroma_ignores_ranges_witness :
    calculate_chroma_alpha pixelEx keyEx paramsEx =
      calculate_chroma_alpha pixelEx keyEx paramsRanged :=
  chroma_ignores_ranges pixelEx keyEx paramsEx paramsRanged rfl

/-- C8: for a fixed pixel, key and ranges, the Distance alpha is monotone in
the variance. -/
theorem distance_alpha_mono (pixel key : Color3) (p : Params) (v1 v2 : ℝ)
    (h : v1 ≤ v2) :
    calculate_distance_alpha pixel key { p with variance := v1 } ≤
      calculate_distance_alpha pixel key { p with variance := v2 } := by
  simp only [calculate_distance_alpha]
  have hd : 0 ≤ Color3.distance_to pixel key := Real.sqrt_nonneg _
  have h1 : 0 < effective_tolerance pixel { p with variance := v1 } :=
    effective_tolerance_pos pixel _
  have hmono : effective_tolerance pixel { p with variance := v1 } ≤
      effective_tolerance pixel { p with variance := v2 } := by
    rw [effective_tolerance_eq, effective_tolerance_eq]
    apply max_le_max le_rfl
    dsimp only
    linarith
  have hdiv := div_le_div_of_nonneg_left hd h1 hmono
  exact max_le_max le_rfl (by linarith)

theorem distance_alpha_mono_witness :
    calculate_distance_alpha pixelEx keyEx
        { paramsEx with variance := 0.2 } ≤
      calculate_distance_alpha pixelEx keyEx
        { paramsEx with variance := 0.5 } :=
  distance_alpha_mono pixelEx keyEx paramsEx 0.2 0.5 (by norm_num)

/-- C9: the Chroma alpha is invariant under adding the same offset to all
three pixel channels, since the (u, v) projection cancels it. -/
theorem chroma_shift_invariant (pixel key : Color3) (p : Params) (d : ℝ) :
    calculate_chroma_alpha ⟨pixel.r + d, pixel.g + d, pixel.b + d⟩ key p =
      calculate_chroma_alpha pixel key p := by
  simp only [calculate_chroma_alpha, chroma_distance]
  have harg : (pixel.r + d - (pixel.g + d) - (key.r - key.g)) *
        (pixel.r + d - (pixel.g + d) - (key.r - key.g)) +
      (pixel.b + d - (pixel.g + d) - (key.b - key.g)) *
        (pixel.b + d - (pixel.g + d) - (key.b - key.g)) =
      (pixel.r - pixel.g - (key.r - key.g)) *
        (pixel.r - pixel.g - (key.r - key.g)) +
      (pixel.b - pixel.g - (key.b - key.g)) *
        (pixel.b - pixel.g - (key.b - key.g)) := by
    ring
  rw [harg]

/-- C10: a method selector outside 0..3 falls through the switch, so the raw
alpha is 0 and post-processing outputs 0, or 1 when inverted. -/
theorem invalid_method_zero (pixel key : Color3) (p : Params)
    (h0 : p.keying_method ≠ 0) (h1 : p.keying_method ≠ 1)
    (h2 : p.keying_method ≠ 2) (h3 : p.keying_method ≠ 3) :
    calculate_alpha pixel key p = 0 ∧
      finalize (calculate_alpha pixel key p) p =
        if p.invert then 1 else 0 := by
  have hz : calculate_alpha pixel key p = 0 := by
    unfold calculate_alpha
    rw [if_neg h0, if_neg h1, if_neg h2, if_neg h3]
  refine ⟨hz, ?_⟩
  rw [hz]
  simp only [finalize, zero_mul]
  norm_num

/-- Parameter set with the out-of-range method selector 7, for the C10
witness. -/
def paramsBadMethod : Params :=
  { variance := 0.3, range_red := 0, range_green := 0, range_blue := 0,
    range_yellow := 0, range_magenta := 0, range_cyan := 0,
    gain := 1, invert := false, keying_method := 7 }

theorem invalid_method_zero_witness :
    calculate_alpha pixelEx keyEx paramsBadMethod = 0 ∧
      finalize (calculate_alpha pixelEx keyEx paramsBadMethod) paramsBadMethod =
        if paramsBadMethod.invert then 1 else 0 :=
  invalid_method_zero pixelEx keyEx paramsBadMethod
    (by norm_num [paramsBadMethod]) (by norm_num [paramsBadMethod])
    (by norm_num [paramsBadMethod]) (by norm_num [paramsBadMethod])

end SimpleColorKeyer

end
